import Mathlib

/-!
Shallow embedding of the `licensecheck` package (src/licensecheck/__init__.py)
and of the collaborator modules it imports (`license_matrix`, `packageinfo`,
`packagecompat`), which are declared and called from `__init__.py` but whose
source files are not part of the source tree; those are modelled from the
specification, as indicated on each definition.

Python strings are modelled as Lean `String`, with the string operations the
code uses (str.lower, str.split, str.splitlines, substring membership)
re-implemented over the underlying character list `String.data` so that every
definition is executable and kernel-reducible on concrete inputs.  Only ASCII
case folding and the "\n" line separator are modelled, which is all the
inputs in question exercise.
-/

namespace LicenseCheck

/-- ASCII lower-casing of one character, modelling Python str.lower on the
ASCII range. -/
def lowerChar (c : Char) : Char :=
  if 'A' ≤ c ∧ c ≤ 'Z' then Char.ofNat (c.toNat + 32) else c

/-- Lower-case a character list. -/
def lowerStr (s : List Char) : List Char := s.map lowerChar

/-- Does the second list start with the first list? -/
def startsWithCL : List Char → List Char → Bool
  | [], _ => true
  | _ :: _, [] => false
  | p :: ps, c :: cs => p == c && startsWithCL ps cs

/-- Does the pattern occur as a contiguous run inside the second list?
Models the Python `pat in s` substring test. -/
def occursIn (pat : List Char) : List Char → Bool
  | [] => startsWithCL pat []
  | c :: cs => startsWithCL pat (c :: cs) || occursIn pat cs

/-- Split a character list at every occurrence of the four-character
separator " or ", scanning left to right.  Models Python
`s.split(" or ")` for the dual-license rule of the classifier. -/
def splitOrAux : List Char → List Char → List (List Char)
  | [], acc => [acc.reverse]
  | ' ' :: 'o' :: 'r' :: ' ' :: rest, acc => acc.reverse :: splitOrAux rest []
  | c :: rest, acc => splitOrAux rest (c :: acc)

/-- Split on the separator " or ". -/
def splitOrCL (s : List Char) : List (List Char) := splitOrAux s []

/-- Split at every newline character, keeping empty pieces. -/
def splitLinesAux : List Char → List Char → List (List Char)
  | [], acc => [acc.reverse]
  | '\n' :: rest, acc => acc.reverse :: splitLinesAux rest []
  | c :: rest, acc => splitLinesAux rest (c :: acc)

/-- Python `s.splitlines(False)`: split at newlines, a trailing newline
producing no trailing empty line, and the empty string producing no
lines at all. -/
def pySplitlines (s : List Char) : List (List Char) :=
  let l := splitLinesAux s []
  if l.getLast? = some [] then l.dropLast else l

/-- Python `s.split()` with no argument: split at runs of whitespace and
discard empty pieces, so a blank or whitespace-only line yields `[]`. -/
def splitWsAux : List Char → List Char → List (List Char)
  | [], acc => if acc.isEmpty then [] else [acc.reverse]
  | c :: rest, acc =>
    if c.isWhitespace then
      if acc.isEmpty then splitWsAux rest [] else acc.reverse :: splitWsAux rest []
    else splitWsAux rest (c :: acc)

/-- Python `line.split()` as used on each line of the poetry output. -/
def pySplitWs (s : List Char) : List (List Char) := splitWsAux s []

/-- Modelled from the spec: the closed set of license category tags of the
License Classifier (`license_matrix` module, not present in the source
tree). -/
inductive LicenseCategory where
  | publicDomain
  | permissive
  | weakCopyleft
  | strongCopyleft
  | proprietary
  | unknown
deriving DecidableEq

/-- Modelled from the spec: the prioritized table of (keyword, category)
rules of the License Classifier (`license_matrix` module, not present in
the source tree): case-insensitive keyword matching, first matching rule
wins, more specific keywords listed before generic ones (agpl and lgpl
before gpl). -/
def matchRules : List (String × LicenseCategory) :=
  [("public domain", .publicDomain), ("unlicense", .publicDomain),
   ("cc0", .publicDomain),
   ("mit", .permissive), ("bsd", .permissive), ("apache", .permissive),
   ("isc", .permissive), ("zlib", .permissive),
   ("lgpl", .weakCopyleft), ("mpl", .weakCopyleft), ("mozilla", .weakCopyleft),
   ("epl", .weakCopyleft), ("eclipse", .weakCopyleft),
   ("agpl", .strongCopyleft), ("gpl", .strongCopyleft),
   ("proprietary", .proprietary)]

/-- Classify one already lower-cased license branch by the first matching
rule; no match yields the unknown category. -/
def classifyOne (s : List Char) : LicenseCategory :=
  match matchRules.find? (fun r => occursIn r.1.data s) with
  | some r => r.2
  | none => .unknown

/-- Permissiveness rank of a category, smaller being the more permissive;
used by the favorable-branch rule for dual licenses. -/
def permRank : LicenseCategory → Nat
  | .publicDomain => 0
  | .permissive => 1
  | .weakCopyleft => 2
  | .strongCopyleft => 3
  | .proprietary => 4
  | .unknown => 5

/-- Most permissive category of a list, the unknown category when no branch
matched anything. -/
def mostPermissive (cats : List LicenseCategory) : LicenseCategory :=
  cats.foldl (fun best c => if permRank c < permRank best then c else best) .unknown

/-- Modelled from the spec: the License Classifier (`license_matrix`
module, not present in the source tree).  Lower-case the free-text license
string, split a dual license at " or ", classify each branch by the rule
table and keep the most permissive matching category; a total function
that degrades to the unknown category instead of raising. -/
def classify (s : String) : LicenseCategory :=
  mostPermissive ((splitOrCL (lowerStr s.data)).map classifyOne)

/-- Modelled from the spec: `license_matrix.licenseType` as called from
`__init__.py`, returning the classification as a list; the classifier
returns exactly one category per string, so the list is a singleton. -/
def licenseType (s : String) : List LicenseCategory := [classify s]

/-- Modelled from the spec: the Compatibility Matrix (`license_matrix`
module, not present in the source tree).  First argument is the consuming
project category, second the dependency category; any unknown side is
conservatively incompatible; a fully enumerated total table. -/
def compatible : LicenseCategory → LicenseCategory → Bool
  | _, .unknown => false
  | .unknown, _ => false
  | _, .publicDomain => true
  | _, .permissive => true
  | .weakCopyleft, .weakCopyleft => true
  | .strongCopyleft, .weakCopyleft => true
  | .strongCopyleft, .strongCopyleft => true
  | .proprietary, .proprietary => true
  | _, _ => false

/-- Modelled from the spec: `license_matrix.depCompatibleLice` as called
from `__init__.py`, taking the project category and the dependency's
classification list (a singleton) and applying the matrix to that one
pair; an empty classification list is treated as unknown. -/
def depCompatibleLice (myLice : LicenseCategory) (depLice : List LicenseCategory) : Bool :=
  compatible myLice (depLice.headD .unknown)

/-- Modelled from the spec: the PackageInfo record produced by the Package
Metadata Lookup (`packageinfo` module, not present in the source tree):
name, version, raw license string, optional homepage and author. -/
structure PackageInfo where
  name : String
  version : String
  license : String
  homePage : Option String
  author : Option String
deriving DecidableEq

/-- Modelled from the spec: `packagecompat.PackageCompat` (module not
present in the source tree): a PackageInfo extended with the boolean
compatibility verdict, as built by
`PackageCompat(**package, license_compat=...)` in `__init__.py`. -/
structure PackageCompat extends PackageInfo where
  license_compat : Bool
deriving DecidableEq

/-- The Report Assembler core of `getdepsLicenses`
(src/licensecheck/__init__.py lines 62-71), as a function of the project's
own license text and the dependency PackageInfo records returned by the
metadata lookup: classify the project license once (`licenseType(...)[0]`,
total here since `licenseType` returns a singleton), then build one
PackageCompat per dependency in input order. -/
def getdepsLicenses (myLiceTxt : String) (packages : List PackageInfo) :
    List PackageCompat :=
  let myLice := (licenseType myLiceTxt).headD .unknown
  packages.map fun package =>
    { toPackageInfo := package,
      license_compat := depCompatibleLice myLice (licenseType package.license) }

/-- `licenseType` instrumented with a log of the strings it is invoked on,
used to state how often the assembler classifies each side. -/
def licenseTypeLogged (s : String) (log : List String) :
    List LicenseCategory × List String :=
  (licenseType s, log ++ [s])

/-- One iteration of the assembler loop of `getdepsLicenses`
(src/licensecheck/__init__.py lines 67-70) in the instrumented form:
classify the dependency's license (logging the call) and append the
PackageCompat record. -/
def tracedStep (myLice : LicenseCategory)
    (acc : List PackageCompat × List String) (package : PackageInfo) :
    List PackageCompat × List String :=
  let depCall := licenseTypeLogged package.license acc.2
  (acc.1 ++ [{ toPackageInfo := package,
               license_compat := depCompatibleLice myLice depCall.1 }],
   depCall.2)

/-- The assembler of `getdepsLicenses` (src/licensecheck/__init__.py lines
62-71) with every classifier invocation logged in order: one call on the
project's license text before the loop, then the loop over the packages. -/
def getdepsLicensesTraced (myLiceTxt : String) (packages : List PackageInfo) :
    List PackageCompat × List String :=
  let myLiceCall := licenseTypeLogged myLiceTxt []
  packages.foldl (tracedStep (myLiceCall.1.headD .unknown)) ([], myLiceCall.2)

/-- Modelled from the spec: the fallback record the Package Metadata Lookup
produces for a dependency whose metadata could not be retrieved — the
record is still emitted, with an unclassifiable (empty) license string. -/
def fallbackInfo (name : String) : PackageInfo :=
  { name := name, version := "", license := "", homePage := none, author := none }

/-- Modelled from the spec: `packageinfo.getPackages` (module not present
in the source tree), parameterized by the external metadata source
`lookup`; a failed lookup (`none`) degrades to the fallback record and
never aborts the batch. -/
def getPackages (lookup : String → Option PackageInfo) (reqs : List String) :
    List PackageInfo :=
  reqs.map fun name => (lookup name).getD (fallbackInfo name)

/-- The metadata lookup composed with the Report Assembler, as in
`getdepsLicenses` (src/licensecheck/__init__.py lines 62-71) where the
assembler loop iterates over `packageinfo.getPackages(reqs)`. -/
def getdepsLicensesFull (lookup : String → Option PackageInfo)
    (myLiceTxt : String) (reqs : List String) : List PackageCompat :=
  getdepsLicenses myLiceTxt (getPackages lookup reqs)

/-- The two ways the embedded Python fragments can fail: an IndexError
from `parts[0]` on an empty split, and an IOError from opening an
unreadable requirements.txt. -/
inductive PyErr where
  | indexError
  | ioError
deriving DecidableEq

/-- The environment the dependency enumerator of `getdepsLicenses`
(src/licensecheck/__init__.py lines 45-61) probes: the exit code of
`poetry -h`, the stdout of `poetry show`, and the contents of
requirements.txt (`none` when the file cannot be opened). -/
structure Env where
  poetryHExit : Int
  poetryShowOut : String
  requirementsTxt : Option String
deriving DecidableEq

/-- The poetry branch of the enumerator (src/licensecheck/__init__.py
lines 54-57): split the `poetry show` output into lines, and for each line
take `line.split()[0]`; a line whose split is empty raises IndexError,
aborting the whole enumeration at that point. -/
def parsePoetryLines : List String → List (List Char) → Except PyErr (List String)
  | acc, [] => .ok acc
  | acc, line :: rest =>
    match pySplitWs line with
    | [] => .error .indexError
    | w :: _ => parsePoetryLines (acc ++ [String.mk w]) rest

/-- Parse the whole `poetry show` output (src/licensecheck/__init__.py
lines 54-57). -/
def parsePoetryShow (out : String) : Except PyErr (List String) :=
  parsePoetryLines [] (pySplitlines out.data)

/-- The dependency enumerator of `getdepsLicenses`
(src/licensecheck/__init__.py lines 45-61), parameterized by the external
`requirements.parse` library (`parseReqs`): when `poetry -h` exits 0 the
names come from `poetry show`; otherwise requirements.txt is read, and an
unreadable file surfaces as an unswallowed IOError. -/
def enumerateDeps (parseReqs : String → List String) (env : Env) :
    Except PyErr (List String) :=
  if env.poetryHExit = 0 then
    parsePoetryShow env.poetryShowOut
  else
    match env.requirementsTxt with
    | none => .error .ioError
    | some txt => .ok (parseReqs txt)

/-- The names of the five formatters of the `formatter` module as wired in
the cli format map (src/licensecheck/__init__.py lines 85-87). -/
inductive FormatName where
  | simple
  | ansi
  | json
  | markdown
  | csv
deriving DecidableEq

/-- The format map of `cli` (src/licensecheck/__init__.py lines 85-87). -/
def formatMap : List (String × FormatName) :=
  [("json", .json), ("markdown", .markdown), ("csv", .csv),
   ("ansi", .ansi), ("simple", .simple)]

/-- What the cli does about the report: generate it with a formatter, or
print the format help text and exit with the given status code without
generating a report. -/
inductive CliAction where
  | report (fmt : FormatName)
  | helpExit (code : Nat)
deriving DecidableEq

/-- The `--format` dispatch of `cli` (src/licensecheck/__init__.py lines
88-94): an omitted format uses the simple formatter, a format in the map
uses that formatter, anything else prints FORMAT_HELP and exits 1. -/
def cliFormatDispatch : Option String → CliAction
  | none => .report .simple
  | some f =>
    match formatMap.find? (fun r => decide (r.1 = f)) with
    | some r => .report r.2
    | none => .helpExit 1

/-! Helper lemmas shared by the claim theorems. -/

theorem compatible_to_unknown (c : LicenseCategory) :
    compatible c .unknown = false := by
  cases c <;> rfl

theorem compatible_from_unknown (c : LicenseCategory) :
    compatible .unknown c = false := by
  cases c <;> rfl

theorem mostPermissive_all_unknown :
    ∀ cats : List LicenseCategory, (∀ c ∈ cats, c = .unknown) →
      mostPermissive cats = .unknown
  | [], _ => rfl
  | c :: cs, h => by
    have hc : c = .unknown := h c (by simp)
    have ih := mostPermissive_all_unknown cs (fun x hx => h x (by simp [hx]))
    simpa [mostPermissive, hc, permRank] using ih

theorem snd_eq_of_mem_zip_map {α β : Type} (f : α → β) :
    ∀ (l : List α) (p : α × β), p ∈ l.zip (l.map f) → p.2 = f p.1
  | [], p, h => by simp at h
  | a :: l, p, h => by
    rw [List.map_cons, List.zip_cons_cons] at h
    rcases List.mem_cons.mp h with h1 | h2
    · rw [h1]
    · exact snd_eq_of_mem_zip_map f l p h2

theorem tracedFoldl_eq (myLice : LicenseCategory) :
    ∀ (packages : List PackageInfo) (acc : List PackageCompat) (log : List String),
      packages.foldl (tracedStep myLice) (acc, log) =
        (acc ++ packages.map (fun package =>
           { toPackageInfo := package,
             license_compat := depCompatibleLice myLice (licenseType package.license) }),
         log ++ packages.map (fun package => package.license))
  | [], acc, log => by simp
  | p :: ps, acc, log => by
    have ih := tracedFoldl_eq myLice ps
      (acc ++ [{ toPackageInfo := p,
                 license_compat := depCompatibleLice myLice (licenseType p.license) }])
      (log ++ [p.license])
    rw [List.foldl_cons,
      show tracedStep myLice (acc, log) p =
        (acc ++ [{ toPackageInfo := p,
                   license_compat := depCompatibleLice myLice (licenseType p.license) }],
         log ++ [p.license]) from rfl, ih]
    simp

theorem getdepsLicensesFull_eq (lookup : String → Option PackageInfo)
    (myLiceTxt : String) (reqs : List String) :
    getdepsLicensesFull lookup myLiceTxt reqs =
      reqs.map (fun name =>
        { toPackageInfo := (lookup name).getD (fallbackInfo name),
          license_compat :=
            depCompatibleLice ((licenseType myLiceTxt).headD .unknown)
              (licenseType ((lookup name).getD (fallbackInfo name)).license) }) := by
  unfold getdepsLicensesFull getdepsLicenses getPackages
  rw [List.map_map]
  rfl

theorem parsePoetryLines_ok :
    ∀ (lines : List (List Char)) (acc : List String),
      (∀ line ∈ lines, pySplitWs line ≠ []) →
      parsePoetryLines acc lines =
        .ok (acc ++ lines.map (fun line => String.mk ((pySplitWs line).headD [])))
  | [], acc, _ => by simp [parsePoetryLines]
  | line :: rest, acc, h => by
    obtain ⟨w, ws, hw⟩ : ∃ w ws, pySplitWs line = w :: ws := by
      cases hws : pySplitWs line with
      | nil => exact absurd hws (h line (by simp))
      | cons w ws => exact ⟨w, ws, rfl⟩
    have ih := parsePoetryLines_ok rest (acc ++ [String.mk w])
      (fun x hx => h x (by simp [hx]))
    simp [parsePoetryLines, hw, ih]

theorem parsePoetryLines_err :
    ∀ (lines : List (List Char)) (acc : List String),
      (∃ line ∈ lines, pySplitWs line = []) →
      parsePoetryLines acc lines = .error .indexError
  | [], _, h => by simp at h
  | line :: rest, acc, h => by
    cases hws : pySplitWs line with
    | nil => simp [parsePoetryLines, hws]
    | cons w ws =>
      obtain ⟨x, hx, hempty⟩ := h
      rcases List.mem_cons.mp hx with rfl | hx2
      · rw [hws] at hempty
        exact absurd hempty (by simp)
      · have ih := parsePoetryLines_err rest (acc ++ [String.mk w]) ⟨x, hx2, hempty⟩
        simp [parsePoetryLines, hws, ih]

/-! The claim theorems. -/

/-- Claim C1: for every sequence of N dependency tuples consumed by the
report assembler (getdepsLicenses), the output is a sequence of exactly N
PackageCompat records, one per input dependency, in the same relative
order as the input, with no filtering or deduplication. -/
theorem claim_C1 (myLiceTxt : String) (packages : List PackageInfo) :
    (getdepsLicenses myLiceTxt packages).map PackageCompat.toPackageInfo = packages ∧
    (getdepsLicenses myLiceTxt packages).length = packages.length := by
  induction packages with
  | nil => exact ⟨rfl, rfl⟩
  | cons p ps ih =>
    constructor
    · simpa [getdepsLicenses] using ih.1
    · simp [getdepsLicenses]

/-- Claim C2: every PackageCompat record emitted by the report assembler
has its license-compatibility field equal to the compatibility-matrix
verdict applied to the project's license category and that dependency's
license category as classified during the same single pass. -/
theorem claim_C2 (myLiceTxt : String) (packages : List PackageInfo)
    (c : PackageCompat) (hc : c ∈ getdepsLicenses myLiceTxt packages) :
    c.license_compat = compatible (classify myLiceTxt) (classify c.license) := by
  simp [getdepsLicenses] at hc
  obtain ⟨p, hp, rfl⟩ := hc
  rfl

theorem claim_C2_witness :
    ({ name := "foo", version := "1", license := "MIT", homePage := none,
       author := none, license_compat := true } : PackageCompat).license_compat
      = compatible (classify "MIT") (classify "MIT") :=
  claim_C2 "MIT"
    [{ name := "foo", version := "1", license := "MIT", homePage := none, author := none }]
    _ (by decide)

/-- Claim C3: the report assembler classifies the project's own license
string exactly once per report generation — the classifier-call trace is
the project string followed by exactly the dependency license strings —
and the traced assembler computes the same report as getdepsLicenses,
reusing the single project-side category for every dependency. -/
theorem claim_C3 (myLiceTxt : String) (packages : List PackageInfo) :
    (getdepsLicensesTraced myLiceTxt packages).2
        = myLiceTxt :: packages.map (fun package => package.license) ∧
    (getdepsLicensesTraced myLiceTxt packages).1
        = getdepsLicenses myLiceTxt packages := by
  unfold getdepsLicensesTraced
  rw [tracedFoldl_eq]
  constructor <;> simp [licenseTypeLogged, getdepsLicenses]

/-- Claim C4: for every free-text license string the classifier returns
exactly one LicenseCategory, and the compatibility matrix is applied to
exactly the single pair of the project category and that one dependency
category to produce the boolean verdict. -/
theorem claim_C4 (s : String) (myLice : LicenseCategory) :
    (licenseType s).length = 1 ∧
    depCompatibleLice myLice (licenseType s) = compatible myLice (classify s) :=
  ⟨rfl, rfl⟩

/-- Claim C5: for every license category c, the compatibility matrix
returns false when the dependency's category is unknown and when the
project's category is unknown; the lookup is total, never an error. -/
theorem claim_C5 (c : LicenseCategory) :
    compatible c .unknown = false ∧ compatible .unknown c = false :=
  ⟨compatible_to_unknown c, compatible_from_unknown c⟩

/-- Claim C6: classify "" is unknown, classify "MIT" is permissive,
classify "GPL-3.0" is strong-copyleft, the dual-license string
"GPL-3.0 or MIT" classifies to the most permissive branch (permissive),
and any input none of whose branches matches a rule classifies to unknown
(the classifier is a total function and never raises). -/
theorem claim_C6 :
    classify "" = .unknown ∧ classify "MIT" = .permissive ∧
    classify "GPL-3.0" = .strongCopyleft ∧
    classify "GPL-3.0 or MIT" = .permissive ∧
    ∀ s : String, (∀ b ∈ splitOrCL (lowerStr s.data), classifyOne b = .unknown) →
      classify s = .unknown := by
  refine ⟨by decide, by decide, by decide, by decide, fun s h => ?_⟩
  unfold classify
  apply mostPermissive_all_unknown
  intro c hc
  simp [List.mem_map] at hc
  obtain ⟨b, hb, rfl⟩ := hc
  exact h b hb

theorem claim_C6_witness : classify "made up text" = .unknown :=
  claim_C6.2.2.2.2 "made up text" (by decide)

/-- Claim C7: if the metadata lookup fails for one dependency, report
generation does not abort: a record is still emitted for every requested
dependency (the output has one record per requested name), and any
dependency whose lookup failed carries a license classified as unknown
and a false compatibility verdict. -/
theorem claim_C7 (lookup : String → Option PackageInfo) (myLiceTxt : String)
    (reqs : List String) :
    (getdepsLicensesFull lookup myLiceTxt reqs).length = reqs.length ∧
    ∀ p ∈ reqs.zip (getdepsLicensesFull lookup myLiceTxt reqs),
      lookup p.1 = none →
        classify p.2.license = .unknown ∧ p.2.license_compat = false := by
  constructor
  · rw [getdepsLicensesFull_eq]
    exact List.length_map reqs _
  · intro p hp hnone
    rw [getdepsLicensesFull_eq] at hp
    have h2 := snd_eq_of_mem_zip_map _ reqs p hp
    rw [h2, hnone]
    have h0 : classify "" = LicenseCategory.unknown := by decide
    simp only [Option.getD_none, fallbackInfo, depCompatibleLice, licenseType,
      List.headD_cons]
    exact ⟨h0, by rw [h0]; exact compatible_to_unknown _⟩

theorem claim_C7_witness :
    (getdepsLicensesFull (fun _ => none) "MIT" ["foo"]).length = ["foo"].length ∧
    (classify ({ name := "foo", version := "", license := "", homePage := none,
                 author := none, license_compat := false } : PackageCompat).license
      = .unknown ∧
     ({ name := "foo", version := "", license := "", homePage := none,
        author := none, license_compat := false } : PackageCompat).license_compat
      = false) :=
  ⟨(claim_C7 (fun _ => none) "MIT" ["foo"]).1,
   (claim_C7 (fun _ => none) "MIT" ["foo"]).2
     ("foo",
      { name := "foo", version := "", license := "", homePage := none,
        author := none, license_compat := false })
     (by decide) rfl⟩

/-- Claim C8: the dependency enumerator selects between exactly two
alternate sources by availability: when poetry is available (exit code 0
from probing it) it enumerates via poetry show, otherwise it falls back
to parsing requirements.txt; and when poetry is absent and
requirements.txt unreadable, it fails with an explicit unswallowed error
rather than producing any dependency list. -/
theorem claim_C8 (parseReqs : String → List String) (env : Env) :
    (env.poetryHExit = 0 →
       enumerateDeps parseReqs env = parsePoetryShow env.poetryShowOut) ∧
    (env.poetryHExit ≠ 0 → ∀ txt, env.requirementsTxt = some txt →
       enumerateDeps parseReqs env = .ok (parseReqs txt)) ∧
    (env.poetryHExit ≠ 0 → env.requirementsTxt = none →
       enumerateDeps parseReqs env = .error .ioError) :=
  ⟨fun h => by simp [enumerateDeps, h],
   fun h txt ht => by simp [enumerateDeps, h, ht],
   fun h ht => by simp [enumerateDeps, h, ht]⟩

theorem claim_C8_witness :
    enumerateDeps (fun _ => ["x"])
      { poetryHExit := 0, poetryShowOut := "foo 1.0", requirementsTxt := none }
      = parsePoetryShow "foo 1.0" ∧
    enumerateDeps (fun _ => ["x"])
      { poetryHExit := 1, poetryShowOut := "", requirementsTxt := some "y" }
      = .ok ["x"] ∧
    enumerateDeps (fun _ => ["x"])
      { poetryHExit := 1, poetryShowOut := "", requirementsTxt := none }
      = .error .ioError :=
  ⟨(claim_C8 (fun _ => ["x"]) _).1 rfl,
   (claim_C8 (fun _ => ["x"]) _).2.1 (by decide) "y" rfl,
   (claim_C8 (fun _ => ["x"]) _).2.2 (by decide) rfl⟩

/-- Claim C9: the poetry branch of the enumerator takes the first
whitespace-separated token of every line of the poetry show output as a
dependency name, and on any output containing an empty or whitespace-only
line the parts[0] indexing fails with IndexError, aborting the
enumeration instead of skipping the line. -/
theorem claim_C9 (out : String) :
    ((∀ line ∈ pySplitlines out.data, pySplitWs line ≠ []) →
       parsePoetryShow out =
         .ok ((pySplitlines out.data).map
              (fun line => String.mk ((pySplitWs line).headD [])))) ∧
    ((∃ line ∈ pySplitlines out.data, pySplitWs line = []) →
       parsePoetryShow out = .error .indexError) :=
  ⟨fun h => by
     simpa [parsePoetryShow] using parsePoetryLines_ok (pySplitlines out.data) [] h,
   fun h => parsePoetryLines_err (pySplitlines out.data) [] h⟩

theorem claim_C9_witness :
    parsePoetryShow "foo 1.0\nbar 2.0" =
      .ok ((pySplitlines "foo 1.0\nbar 2.0".data).map
           (fun line => String.mk ((pySplitWs line).headD []))) ∧
    parsePoetryShow "foo 1.0\n\nbar 2.0" = .error .indexError :=
  ⟨(claim_C9 "foo 1.0\nbar 2.0").1 (by decide),
   (claim_C9 "foo 1.0\n\nbar 2.0").2 (by decide)⟩

/-- Claim C10: for every format argument value outside the set
{simple, ansi, json, markdown, csv}, the cli dispatch prints the format
help and exits with status 1 without generating any report; when the
format is omitted, the simple formatter is used. -/
theorem claim_C10 :
    (∀ f : String, f ∉ ["simple", "ansi", "json", "markdown", "csv"] →
       cliFormatDispatch (some f) = .helpExit 1) ∧
    cliFormatDispatch none = .report .simple := by
  refine ⟨fun f hf => ?_, rfl⟩
  simp only [List.mem_cons, List.not_mem_nil, or_false, not_or] at hf
  obtain ⟨h1, h2, h3, h4, h5⟩ := hf
  simp [cliFormatDispatch, formatMap, List.find?,
    Ne.symm h1, Ne.symm h2, Ne.symm h3, Ne.symm h4, Ne.symm h5]

theorem claim_C10_witness : cliFormatDispatch (some "xml") = .helpExit 1 :=
  claim_C10.1 "xml" (by decide)

end LicenseCheck
